import Mathlib

/-!
Verification of the issuance-and-marketplace ledger of the MusicAlbumNFT
contract (contracts/MusicAlbumNFT.sol, album/track variant).

The contract state and every mutating entry point are embedded as pure Lean
functions.  Solidity `uint256` values are modelled as `Nat` (the compiler
version used, 0.8.x, reverts on wraparound, so no arithmetic result ever
wraps; none of the verified properties depends on the modulus).  Addresses
are modelled as `Nat` with `0` playing the role of the zero address.
A reverting `require` is modelled by returning `Except.error`; the EVM
discards all writes of a reverted call, which the embedding mirrors by
building the updated state only on the success path and returning no state
on the error path.  The two low-level payment dispatches inside
`purchaseTrack` are external calls that merely report success or failure;
their outcomes are passed in as the booleans `sellerPayOk` / `creatorPayOk`,
and the code turns a `false` report into a revert via `require`.
-/

namespace MusicAlbum

/-- Pointwise update of a total map, mirroring a Solidity mapping write. -/
def upd {α : Type} (f : Nat → α) (k : Nat) (v : α) : Nat → α :=
  fun x => if x = k then v else f x

@[simp] theorem upd_self {α : Type} (f : Nat → α) (k : Nat) (v : α) : upd f k v k = v := by
  simp [upd]

@[simp] theorem upd_ne {α : Type} (f : Nat → α) {x k : Nat} (v : α) (h : x ≠ k) :
    upd f k v x = f x := by
  simp [upd, h]

/-- Failure taxonomy of the ledger (spec section 7).  Each `require` of the
contract is mapped to the taxonomy entry the spec assigns to it; the two
internal OpenZeppelin ERC721 checks (mint to the zero address, token already
minted) are collected under `ERC721Error`, and `NotPaused` is the failure of
`unpause` while active (`Pausable: not paused`). -/
inductive Err : Type
  | ValidationError
  | NotFound
  | Unauthorized
  | SystemPaused
  | NotPaused
  | CapacityExceeded
  | InsufficientPayment
  | NotForSale
  | SelfPurchase
  | PaymentDispatchError
  | Reentrancy
  | ERC721Error
deriving DecidableEq, Repr

/-- The `Album` struct of the contract.  `trackExists` is the embedded
`mapping(uint256 => bool)`; `exists_` is the `exists` flag. -/
structure Album : Type where
  name : String
  uri : String
  totalTracks : Nat
  maxSupply : Nat
  currentSupply : Nat
  trackExists : Nat → Bool
  exists_ : Bool

/-- The `Track` struct of the contract: one record per issued copy (token). -/
structure Track : Type where
  name : String
  uri : String
  albumId : Nat
  trackNumber : Nat
  minPrice : Nat
  maxSupply : Nat
  currentSupply : Nat
  isForSale : Bool
  creator : Nat
deriving DecidableEq, Repr

/-- Zero value of an `Album` slot: what an unwritten Solidity mapping entry holds. -/
def defaultAlbum : Album :=
  { name := ""
    uri := ""
    totalTracks := 0
    maxSupply := 0
    currentSupply := 0
    trackExists := fun _ => false
    exists_ := false }

/-- Zero value of a `Track` slot. -/
def defaultTrack : Track :=
  { name := ""
    uri := ""
    albumId := 0
    trackNumber := 0
    minPrice := 0
    maxSupply := 0
    currentSupply := 0
    isForSale := false
    creator := 0 }

/-- Full contract storage: the `Ownable` owner, the `Pausable` flag, the
`ReentrancyGuard` status (`entered = true` is `_status == _ENTERED`), both
counters, the royalty configuration, the three ledger mappings and the
ERC721 `_owners` mapping (0 encodes a nonexistent token). -/
structure State : Type where
  owner : Nat
  paused : Bool
  entered : Bool
  tokenIds : Nat
  albumIds : Nat
  creatorRoyalty : Nat
  sellerRoyalty : Nat
  albums : Nat → Album
  tracks : Nat → Track
  albumTrackToToken : Nat → Nat → Nat
  owners : Nat → Nat

/-- ROYALTY_DENOMINATOR of the contract. -/
def ROYALTY_DENOM : Nat := 100

/-- The storage produced by the constructor: deployer becomes owner, both
counters at zero, every mapping at its zero value, not paused, guard free.
The constructor itself additionally requires `c + k = ROYALTY_DENOM`. -/
def initState (deployer c k : Nat) : State :=
  { owner := deployer
    paused := false
    entered := false
    tokenIds := 0
    albumIds := 0
    creatorRoyalty := c
    sellerRoyalty := k
    albums := fun _ => defaultAlbum
    tracks := fun _ => defaultTrack
    albumTrackToToken := fun _ _ => 0
    owners := fun _ => 0 }

/-- ERC721 `_exists`: a token exists iff its `_owners` entry is nonzero. -/
def existsToken (s : State) (tokenId : Nat) : Bool :=
  s.owners tokenId != 0

/-- `createAlbum(name, uri, totalTracks, maxSupply)`, `onlyOwner`.
Validations in source order, then a fresh sequential album id, then the new
record (the source never assigns `trackExists`, so the slot keeps the
mapping it already had — embedded by copying it from the old slot). -/
def createAlbum (s : State) (sender : Nat) (name uri : String)
    (totalTracks maxSupply : Nat) : Except Err (State × Nat) :=
  if sender = s.owner then
    if name = "" then .error .ValidationError
    else if uri = "" then .error .ValidationError
    else if totalTracks = 0 then .error .ValidationError
    else if maxSupply = 0 then .error .ValidationError
    else
      let newAlbumId := s.albumIds + 1
      let album : Album :=
        { name := name
          uri := uri
          totalTracks := totalTracks
          maxSupply := maxSupply
          currentSupply := 0
          trackExists := (s.albums newAlbumId).trackExists
          exists_ := true }
      .ok ({ s with albumIds := newAlbumId, albums := upd s.albums newAlbumId album },
           newAlbumId)
  else .error .Unauthorized

/-- `mintTrack(albumId, trackNumber, name, uri, minPrice, maxSupply)`,
`onlyOwner whenNotPaused`.  Validations in source order; a fresh token id;
`_safeMint` (nonzero recipient, unused id); the new track record with
`currentSupply = 1` and `isForSale = true`; slot marked filled; the album
supply incremented; and only then the album-cap `require`, so a violated
album cap reverts the already-applied tentative writes. -/
def mintTrack (s : State) (sender albumId trackNumber : Nat) (name uri : String)
    (minPrice maxSupply : Nat) : Except Err (State × Nat) :=
  if sender = s.owner then
    if s.paused then .error .SystemPaused
    else if (s.albums albumId).exists_ then
      if 0 < trackNumber ∧ trackNumber ≤ (s.albums albumId).totalTracks then
        if (s.albums albumId).trackExists trackNumber then .error .ValidationError
        else if name = "" then .error .ValidationError
        else if uri = "" then .error .ValidationError
        else if maxSupply = 0 then .error .ValidationError
        else
          let newTokenId := s.tokenIds + 1
          if sender = 0 then .error .ERC721Error
          else if s.owners newTokenId = 0 then
            let newTrack : Track :=
              { name := name
                uri := uri
                albumId := albumId
                trackNumber := trackNumber
                minPrice := minPrice
                maxSupply := maxSupply
                currentSupply := 1
                isForSale := true
                creator := sender }
            let album1 : Album :=
              { s.albums albumId with
                  trackExists := upd (s.albums albumId).trackExists trackNumber true
                  currentSupply := (s.albums albumId).currentSupply + 1 }
            if album1.currentSupply ≤ album1.maxSupply then
              .ok ({ s with
                       tokenIds := newTokenId
                       owners := upd s.owners newTokenId sender
                       tracks := upd s.tracks newTokenId newTrack
                       albums := upd s.albums albumId album1
                       albumTrackToToken :=
                         upd s.albumTrackToToken albumId
                           (upd (s.albumTrackToToken albumId) trackNumber newTokenId) },
                   newTokenId)
            else .error .CapacityExceeded
          else .error .ERC721Error
      else .error .ValidationError
    else .error .NotFound
  else .error .Unauthorized

/-- `mintAdditionalCopy(albumId, trackNumber)`, `onlyOwner whenNotPaused`.
Capacity checks are evaluated against the canonical record (the one the
`albumTrackToToken` mapping points at) before any write; on success a new
token is minted with a copy of that record at `currentSupply + 1`, the
canonical record and the album counter are incremented. -/
def mintAdditionalCopy (s : State) (sender albumId trackNumber : Nat) :
    Except Err (State × Nat) :=
  if sender = s.owner then
    if s.paused then .error .SystemPaused
    else if (s.albums albumId).exists_ then
      if (s.albums albumId).trackExists trackNumber then
        let originalTokenId := s.albumTrackToToken albumId trackNumber
        let track := s.tracks originalTokenId
        if track.currentSupply < track.maxSupply then
          if (s.albums albumId).currentSupply < (s.albums albumId).maxSupply then
            let newTokenId := s.tokenIds + 1
            if sender = 0 then .error .ERC721Error
            else if s.owners newTokenId = 0 then
              let newTrack : Track :=
                { track with currentSupply := track.currentSupply + 1, isForSale := true }
              let tracks1 := upd s.tracks newTokenId newTrack
              let tracks2 :=
                upd tracks1 originalTokenId
                  { tracks1 originalTokenId with
                      currentSupply := (tracks1 originalTokenId).currentSupply + 1 }
              let album1 : Album :=
                { s.albums albumId with
                    currentSupply := (s.albums albumId).currentSupply + 1 }
              .ok ({ s with
                       tokenIds := newTokenId
                       owners := upd s.owners newTokenId sender
                       tracks := tracks2
                       albums := upd s.albums albumId album1 },
                   newTokenId)
            else .error .ERC721Error
          else .error .CapacityExceeded
        else .error .CapacityExceeded
      else .error .NotFound
    else .error .NotFound
  else .error .Unauthorized

/-- `purchaseTrack(tokenId)`, `payable whenNotPaused nonReentrant`.
Modifier order first (pause, then the reentrancy guard), then the four body
`require`s in source order, then `_transfer` (which itself rejects a zero
buyer), the royalty split, the two payment dispatch legs (seller first,
each `require`d to succeed), and finally the sale flag is cleared.  On
success the returned list records the two dispatched payments in order. -/
def purchaseTrack (s : State) (sender value tokenId : Nat)
    (sellerPayOk creatorPayOk : Bool) : Except Err (State × List (Nat × Nat)) :=
  if s.paused then .error .SystemPaused
  else if s.entered then .error .Reentrancy
  else if s.owners tokenId = 0 then .error .NotFound
  else if (s.tracks tokenId).isForSale then
    if value < (s.tracks tokenId).minPrice then .error .InsufficientPayment
    else
      let seller := s.owners tokenId
      if sender = seller then .error .SelfPurchase
      else if sender = 0 then .error .ERC721Error
      else
        let s1 : State := { s with owners := upd s.owners tokenId sender }
        let creatorAmount := value * s.creatorRoyalty / ROYALTY_DENOM
        let sellerAmount := value - creatorAmount
        if sellerPayOk then
          if creatorPayOk then
            let s2 : State :=
              { s1 with
                  tracks := upd s1.tracks tokenId { s1.tracks tokenId with isForSale := false } }
            .ok (s2, [(seller, sellerAmount), ((s.tracks tokenId).creator, creatorAmount)])
          else .error .PaymentDispatchError
        else .error .PaymentDispatchError
  else .error .NotForSale

/-- `setRoyalty(_creatorRoyalty, _sellerRoyalty)`, `onlyOwner`. -/
def setRoyalty (s : State) (sender c k : Nat) : Except Err State :=
  if sender = s.owner then
    if c + k = ROYALTY_DENOM then
      .ok { s with creatorRoyalty := c, sellerRoyalty := k }
    else .error .ValidationError
  else .error .Unauthorized

/-- `setTrackMaxSupply(albumId, trackNumber, newMaxSupply)`, `onlyOwner`.
The floor is the `currentSupply` of the canonical record of the slot. -/
def setTrackMaxSupply (s : State) (sender albumId trackNumber newMaxSupply : Nat) :
    Except Err State :=
  if sender = s.owner then
    if (s.albums albumId).exists_ then
      if (s.albums albumId).trackExists trackNumber then
        let tokenId := s.albumTrackToToken albumId trackNumber
        if (s.tracks tokenId).currentSupply ≤ newMaxSupply then
          .ok { s with
                  tracks := upd s.tracks tokenId
                    { s.tracks tokenId with maxSupply := newMaxSupply } }
        else .error .ValidationError
      else .error .NotFound
    else .error .NotFound
  else .error .Unauthorized

/-- `setAlbumMaxSupply(albumId, newMaxSupply)`, `onlyOwner`. -/
def setAlbumMaxSupply (s : State) (sender albumId newMaxSupply : Nat) :
    Except Err State :=
  if sender = s.owner then
    if (s.albums albumId).exists_ then
      if (s.albums albumId).currentSupply ≤ newMaxSupply then
        .ok { s with
                albums := upd s.albums albumId
                  { s.albums albumId with maxSupply := newMaxSupply } }
      else .error .ValidationError
    else .error .NotFound
  else .error .Unauthorized

/-- `updateTrackPrice(tokenId, newMinPrice)`, `onlyOwner`. -/
def updateTrackPrice (s : State) (sender tokenId newMinPrice : Nat) :
    Except Err State :=
  if sender = s.owner then
    if s.owners tokenId = 0 then .error .NotFound
    else
      .ok { s with
              tracks := upd s.tracks tokenId
                { s.tracks tokenId with minPrice := newMinPrice } }
  else .error .Unauthorized

/-- `updateTrackSaleStatus(tokenId, isForSale)`, `onlyOwner`. -/
def updateTrackSaleStatus (s : State) (sender tokenId : Nat) (isForSale : Bool) :
    Except Err State :=
  if sender = s.owner then
    if s.owners tokenId = 0 then .error .NotFound
    else
      .ok { s with
              tracks := upd s.tracks tokenId
                { s.tracks tokenId with isForSale := isForSale } }
  else .error .Unauthorized

/-- `pause()`, `onlyOwner`; `_pause` carries `whenNotPaused`. -/
def pause (s : State) (sender : Nat) : Except Err State :=
  if sender = s.owner then
    if s.paused then .error .SystemPaused
    else .ok { s with paused := true }
  else .error .Unauthorized

/-- `unpause()`, `onlyOwner`; `_unpause` carries `whenPaused`. -/
def unpause (s : State) (sender : Nat) : Except Err State :=
  if sender = s.owner then
    if s.paused then .ok { s with paused := false }
    else .error .NotPaused
  else .error .Unauthorized

/-- `getTrackSupply(albumId, trackNumber)`: read-only. -/
def getTrackSupply (s : State) (albumId trackNumber : Nat) : Except Err (Nat × Nat) :=
  if (s.albums albumId).exists_ = false then .error .NotFound
  else if (s.albums albumId).trackExists trackNumber = false then .error .NotFound
  else
    let tokenId := s.albumTrackToToken albumId trackNumber
    .ok ((s.tracks tokenId).currentSupply, (s.tracks tokenId).maxSupply)

/-- `getAlbumSupply(albumId)`: read-only. -/
def getAlbumSupply (s : State) (albumId : Nat) : Except Err (Nat × Nat) :=
  if (s.albums albumId).exists_ = false then .error .NotFound
  else .ok ((s.albums albumId).currentSupply, (s.albums albumId).maxSupply)

/-- `getAlbumTracks(albumId)`: read-only.  The source allocates an array of
`totalTracks` zero records and fills a prefix with the records of the filled
slots in track-number order; the embedding returns that same padded list. -/
def getAlbumTracks (s : State) (albumId : Nat) : Except Err (List Track) :=
  if (s.albums albumId).exists_ = false then .error .NotFound
  else
    let found :=
      ((List.range (s.albums albumId).totalTracks).map (· + 1)).filterMap
        (fun n =>
          if (s.albums albumId).trackExists n then
            some (s.tracks (s.albumTrackToToken albumId n))
          else none)
    .ok (found ++ List.replicate ((s.albums albumId).totalTracks - found.length) defaultTrack)

/-- `tokenURI(tokenId)`: read-only. -/
def tokenURI (s : State) (tokenId : Nat) : Except Err String :=
  if s.owners tokenId = 0 then .error .NotFound
  else .ok (s.tracks tokenId).uri

/-- `totalAlbums()`: read-only. -/
def totalAlbums (s : State) : Nat := s.albumIds

/-- `totalSupply()`: read-only. -/
def totalSupply (s : State) : Nat := s.tokenIds

/-- One mutating entry point together with its caller, money and — for the
purchase — the outcomes of the two external payment dispatch legs. -/
inductive Op : Type
  | createAlbum (sender : Nat) (name uri : String) (totalTracks maxSupply : Nat)
  | mintTrack (sender albumId trackNumber : Nat) (name uri : String)
      (minPrice maxSupply : Nat)
  | mintAdditionalCopy (sender albumId trackNumber : Nat)
  | purchaseTrack (sender value tokenId : Nat) (sellerPayOk creatorPayOk : Bool)
  | setRoyalty (sender c k : Nat)
  | setTrackMaxSupply (sender albumId trackNumber newMaxSupply : Nat)
  | setAlbumMaxSupply (sender albumId newMaxSupply : Nat)
  | updateTrackPrice (sender tokenId newMinPrice : Nat)
  | updateTrackSaleStatus (sender tokenId : Nat) (isForSale : Bool)
  | pause (sender : Nat)
  | unpause (sender : Nat)

/-- Forget the auxiliary return value of an entry point, keeping the state. -/
def stOf {α : Type} : Except Err (State × α) → Except Err State
  | .ok p => .ok p.1
  | .error e => .error e

/-- Run one mutating entry point on the contract storage. -/
def runOp (s : State) : Op → Except Err State
  | .createAlbum sender name uri tt ms => stOf (createAlbum s sender name uri tt ms)
  | .mintTrack sender a n name uri mp ms => stOf (mintTrack s sender a n name uri mp ms)
  | .mintAdditionalCopy sender a n => stOf (mintAdditionalCopy s sender a n)
  | .purchaseTrack sender v t po pc => stOf (purchaseTrack s sender v t po pc)
  | .setRoyalty sender c k => setRoyalty s sender c k
  | .setTrackMaxSupply sender a n m => setTrackMaxSupply s sender a n m
  | .setAlbumMaxSupply sender a m => setAlbumMaxSupply s sender a m
  | .updateTrackPrice sender t p => updateTrackPrice s sender t p
  | .updateTrackSaleStatus sender t b => updateTrackSaleStatus s sender t b
  | .pause sender => pause s sender
  | .unpause sender => unpause s sender

/-- The ledger state observed after a call: a revert leaves the pre-call
storage in place (EVM transaction semantics). -/
def exec (s : State) (o : Op) : State :=
  match runOp s o with
  | .ok s2 => s2
  | .error _ => s

/-- Observed state after a sequence of calls. -/
def execList (s : State) (ops : List Op) : State :=
  ops.foldl exec s

/-! ### Concrete fixtures, used by the witness theorems.
They follow the worked scenario of spec section 8: an album with two slots,
one track minted at price 100, royalty configuration 10 / 90. -/

def demoName : String := "Demo"

def demoURI : String := "uri-a"

def t1name : String := "T1"

def t1uri : String := "uri-t1"

def t2name : String := "T2"

def t2uri : String := "uri-t2"

/-- Create an album with two slots and capacity 3, then mint track 1. -/
def wOps : List Op :=
  [Op.createAlbum 1 demoName demoURI 2 3, Op.mintTrack 1 1 1 t1name t1uri 100 2]

/-- Ledger holding one for-sale token (id 1, owner 1, price 100). -/
def wState : State := execList (initState 1 10 90) wOps

/-- Result of buyer 2 purchasing token 1 for 150 with both dispatch legs good. -/
def wRes : Except Err (State × List (Nat × Nat)) :=
  purchaseTrack wState 2 150 1 true true

/-- State component of `wRes`. -/
def wPurchased : State :=
  match wRes with
  | .ok p => p.1
  | .error _ => wState

/-- Payment list component of `wRes`. -/
def wPays : List (Nat × Nat) :=
  match wRes with
  | .ok p => p.2
  | .error _ => []

/-- An album whose capacity (1) is already exhausted by its first track. -/
def wFull : State :=
  execList (initState 1 10 90)
    [Op.createAlbum 1 demoName demoURI 2 1, Op.mintTrack 1 1 1 t1name t1uri 100 2]

/-- `wState` with the reentrancy guard held (a mutating call in progress). -/
def wEntered : State := { wState with entered := true }

/-- `wState` plus a second issued copy of track (1,1): tokens 1 and 2
share the same (albumId, trackNumber). -/
def wCopies : State := exec wState (Op.mintAdditionalCopy 1 1 1)

/-- `wCopies` after `updateTrackPrice(2, 777)`. -/
def wPriced : State :=
  match updateTrackPrice wCopies 1 2 777 with
  | .ok x => x
  | .error _ => wCopies

/-- `wCopies` after `updateTrackSaleStatus(2, false)`. -/
def wToggled : State :=
  match updateTrackSaleStatus wCopies 1 2 false with
  | .ok x => x
  | .error _ => wCopies

/-- `wState` after `pause()`. -/
def wPaused : State := exec wState (Op.pause 1)

/-! ### Claims -/

/-- Claim C1: for every mutating operation and every input state, a call
that fails with any error leaves the observed ledger state exactly as it
was before the call — a revert discards every tentative write, including
the ownership transfer and the first dispatch leg of a purchase whose
later payment dispatch fails. -/
theorem failed_mutation_leaves_state_unchanged (s : State) (o : Op) (e : Err)
    (h : runOp s o = .error e) : exec s o = s := by
  unfold exec
  rw [h]

theorem failed_mutation_leaves_state_unchanged_witness :
    runOp wState (Op.purchaseTrack 2 150 1 true false) = .error Err.PaymentDispatchError ∧
    exec wState (Op.purchaseTrack 2 150 1 true false) = wState :=
  ⟨rfl, failed_mutation_leaves_state_unchanged wState _ Err.PaymentDispatchError rfl⟩

/-- Claim C2: a successful purchase transfers ownership of the token to the
buyer (who was not the owner), clears its for-sale flag, dispatches to the
creator exactly the floored share `value * creatorRoyalty / 100` and to the
seller exactly the remainder, and the two shares always sum back to the
payment, for every royalty percentage up to 100. -/
theorem purchase_success_effects (s : State) (sender value tokenId : Nat)
    (s2 : State) (pays : List (Nat × Nat))
    (hr : s.creatorRoyalty ≤ 100)
    (h : purchaseTrack s sender value tokenId true true = .ok (s2, pays)) :
    s2.owners tokenId = sender ∧
    sender ≠ s.owners tokenId ∧
    (s2.tracks tokenId).isForSale = false ∧
    pays = [(s.owners tokenId, value - value * s.creatorRoyalty / 100),
            ((s.tracks tokenId).creator, value * s.creatorRoyalty / 100)] ∧
    (value * s.creatorRoyalty / 100) + (value - value * s.creatorRoyalty / 100) = value := by
  have hle : value * s.creatorRoyalty / 100 ≤ value := by
    have h1 : value * s.creatorRoyalty ≤ value * 100 := Nat.mul_le_mul_left value hr
    have h2 : value * s.creatorRoyalty / 100 ≤ value * 100 / 100 := Nat.div_le_div_right h1
    simpa [Nat.mul_div_cancel value (by norm_num : (0:Nat) < 100)] using h2
  simp only [purchaseTrack, ROYALTY_DENOM] at h
  split_ifs at h with h1 h2 h3 h4 h5 h6 h7
  injection h with hh
  injection hh with hS hP
  subst hS
  subst hP
  exact ⟨by simp, h6, by simp, rfl, by omega⟩

theorem purchase_success_effects_witness :
    wPurchased.owners 1 = 2 ∧
    (2 : Nat) ≠ wState.owners 1 ∧
    (wPurchased.tracks 1).isForSale = false ∧
    wPays = [(wState.owners 1, 150 - 150 * wState.creatorRoyalty / 100),
             ((wState.tracks 1).creator, 150 * wState.creatorRoyalty / 100)] ∧
    (150 * wState.creatorRoyalty / 100) + (150 - 150 * wState.creatorRoyalty / 100) = 150 :=
  purchase_success_effects wState 2 150 1 wPurchased wPays (by decide) rfl

/-- Claim C3: purchase checks its preconditions in the fixed source order —
NotFound, then NotForSale, then InsufficientPayment, then SelfPurchase —
each short-circuiting with its own failure; in particular a purchase
attempt by the current owner with sufficient payment on a for-sale token
always fails with SelfPurchase and leaves the state unchanged. -/
theorem purchase_precondition_order (s : State) (sender value tokenId : Nat)
    (po pc : Bool) (hp : s.paused = false) (he : s.entered = false) :
    (s.owners tokenId = 0 →
        purchaseTrack s sender value tokenId po pc = .error Err.NotFound) ∧
    (s.owners tokenId ≠ 0 → (s.tracks tokenId).isForSale = false →
        purchaseTrack s sender value tokenId po pc = .error Err.NotForSale) ∧
    (s.owners tokenId ≠ 0 → (s.tracks tokenId).isForSale = true →
        value < (s.tracks tokenId).minPrice →
        purchaseTrack s sender value tokenId po pc = .error Err.InsufficientPayment) ∧
    (s.owners tokenId ≠ 0 → (s.tracks tokenId).isForSale = true →
        (s.tracks tokenId).minPrice ≤ value → sender = s.owners tokenId →
        purchaseTrack s sender value tokenId po pc = .error Err.SelfPurchase ∧
        exec s (Op.purchaseTrack sender value tokenId po pc) = s) := by
  refine ⟨?_, ?_, ?_, ?_⟩
  · intro h0
    simp [purchaseTrack, hp, he, h0]
  · intro h0 h1
    simp [purchaseTrack, hp, he, h0, h1]
  · intro h0 h1 h2
    simp [purchaseTrack, hp, he, h0, h1, h2]
  · intro h0 h1 h2 h3
    have herr : purchaseTrack s sender value tokenId po pc = .error Err.SelfPurchase := by
      simp [purchaseTrack, hp, he, h0, h1, h3, Nat.not_lt.mpr h2]
    exact ⟨herr, by simp [exec, runOp, stOf, herr]⟩

theorem purchase_precondition_order_witness :
    purchaseTrack wState 1 150 1 true true = .error Err.SelfPurchase ∧
    exec wState (Op.purchaseTrack 1 150 1 true true) = wState := by
  have h := purchase_precondition_order wState 1 150 1 true true rfl rfl
  exact h.2.2.2 (by decide) rfl (by decide) rfl


/-- Claim C5: when every validation passes, mintTrack allocates the fresh
token id `tokenIds + 1`, creates the track record with currentSupply 1,
marks the album slot filled, and increments the album supply; when that
incremented supply would exceed the album cap it fails with
CapacityExceeded instead, and the observed state is exactly the pre-call
state — the cap check sits after the tentative writes and a violation
rolls all of them back. -/
theorem mintTrack_success_and_album_cap (s : State) (sender albumId trackNumber : Nat)
    (name uri : String) (minPrice maxSupply : Nat)
    (hs : sender = s.owner) (hz : sender ≠ 0) (hp : s.paused = false)
    (hex : (s.albums albumId).exists_ = true)
    (hrange : 0 < trackNumber ∧ trackNumber ≤ (s.albums albumId).totalTracks)
    (hslot : (s.albums albumId).trackExists trackNumber = false)
    (hn : name ≠ "") (hu : uri ≠ "") (hms : maxSupply ≠ 0)
    (hfresh : s.owners (s.tokenIds + 1) = 0) :
    ((s.albums albumId).currentSupply + 1 ≤ (s.albums albumId).maxSupply →
      mintTrack s sender albumId trackNumber name uri minPrice maxSupply =
        .ok ({ s with
                 tokenIds := s.tokenIds + 1
                 owners := upd s.owners (s.tokenIds + 1) sender
                 tracks := upd s.tracks (s.tokenIds + 1)
                   { name := name
                     uri := uri
                     albumId := albumId
                     trackNumber := trackNumber
                     minPrice := minPrice
                     maxSupply := maxSupply
                     currentSupply := 1
                     isForSale := true
                     creator := sender }
                 albums := upd s.albums albumId
                   { s.albums albumId with
                       trackExists := upd (s.albums albumId).trackExists trackNumber true
                       currentSupply := (s.albums albumId).currentSupply + 1 }
                 albumTrackToToken :=
                   upd s.albumTrackToToken albumId
                     (upd (s.albumTrackToToken albumId) trackNumber (s.tokenIds + 1)) },
             s.tokenIds + 1)) ∧
    ((s.albums albumId).maxSupply < (s.albums albumId).currentSupply + 1 →
      mintTrack s sender albumId trackNumber name uri minPrice maxSupply =
        .error Err.CapacityExceeded ∧
      exec s (Op.mintTrack sender albumId trackNumber name uri minPrice maxSupply) = s) := by
  constructor
  · intro hcap
    simp [mintTrack, hs, hp, hex, hrange, hslot, hn, hu, hms, hz, hfresh, hcap,
      hs ▸ hz]
  · intro hcap
    have herr : mintTrack s sender albumId trackNumber name uri minPrice maxSupply =
        .error Err.CapacityExceeded := by
      simp [mintTrack, hs, hp, hex, hrange, hslot, hn, hu, hms, hz, hfresh,
        Nat.not_le.mpr hcap, hs ▸ hz]
    exact ⟨herr, by simp [exec, runOp, stOf, herr]⟩


theorem mintTrack_success_and_album_cap_witness :
    (mintTrack wState 1 1 2 t2name t2uri 5 2).isOk = true ∧
    mintTrack wFull 1 1 2 t2name t2uri 5 1 = .error Err.CapacityExceeded ∧
    exec wFull (Op.mintTrack 1 1 2 t2name t2uri 5 1) = wFull := by
  have hOk := (mintTrack_success_and_album_cap wState 1 1 2 t2name t2uri 5 2
    rfl (by decide) rfl rfl (by decide) rfl (by decide) (by decide) (by decide) rfl).1
    (by decide)
  have hBad := (mintTrack_success_and_album_cap wFull 1 1 2 t2name t2uri 5 1
    rfl (by decide) rfl rfl (by decide) rfl (by decide) (by decide) (by decide) rfl).2
    (by decide)
  exact ⟨by rw [hOk]; rfl, hBad.1, hBad.2⟩

/-- Claim C6: on an existing album/track, setTrackMaxSupply and
setAlbumMaxSupply fail with ValidationError (changing nothing) for every
new cap strictly below the current issued count, and persist every new cap
greater than or equal to it — the monotonic-floor rule. -/
theorem max_supply_monotonic_floor (s : State) (sender albumId trackNumber newMax : Nat)
    (hs : sender = s.owner)
    (hex : (s.albums albumId).exists_ = true)
    (hslot : (s.albums albumId).trackExists trackNumber = true) :
    (newMax < (s.tracks (s.albumTrackToToken albumId trackNumber)).currentSupply →
       setTrackMaxSupply s sender albumId trackNumber newMax = .error Err.ValidationError ∧
       exec s (Op.setTrackMaxSupply sender albumId trackNumber newMax) = s) ∧
    ((s.tracks (s.albumTrackToToken albumId trackNumber)).currentSupply ≤ newMax →
       setTrackMaxSupply s sender albumId trackNumber newMax =
         .ok { s with
                 tracks := upd s.tracks (s.albumTrackToToken albumId trackNumber)
                   { s.tracks (s.albumTrackToToken albumId trackNumber) with
                       maxSupply := newMax } }) ∧
    (newMax < (s.albums albumId).currentSupply →
       setAlbumMaxSupply s sender albumId newMax = .error Err.ValidationError ∧
       exec s (Op.setAlbumMaxSupply sender albumId newMax) = s) ∧
    ((s.albums albumId).currentSupply ≤ newMax →
       setAlbumMaxSupply s sender albumId newMax =
         .ok { s with
                 albums := upd s.albums albumId
                   { s.albums albumId with maxSupply := newMax } }) := by
  refine ⟨?_, ?_, ?_, ?_⟩
  · intro hlow
    have herr : setTrackMaxSupply s sender albumId trackNumber newMax =
        .error Err.ValidationError := by
      simp [setTrackMaxSupply, hs, hex, hslot, Nat.not_le.mpr hlow]
    exact ⟨herr, by simp [exec, runOp, herr]⟩
  · intro hge
    simp [setTrackMaxSupply, hs, hex, hslot, hge]
  · intro hlow
    have herr : setAlbumMaxSupply s sender albumId newMax =
        .error Err.ValidationError := by
      simp [setAlbumMaxSupply, hs, hex, Nat.not_le.mpr hlow]
    exact ⟨herr, by simp [exec, runOp, herr]⟩
  · intro hge
    simp [setAlbumMaxSupply, hs, hex, hge]

theorem max_supply_monotonic_floor_witness :
    (setTrackMaxSupply wState 1 1 1 0 = .error Err.ValidationError ∧
     exec wState (Op.setTrackMaxSupply 1 1 1 0) = wState) ∧
    (setTrackMaxSupply wState 1 1 1 9).isOk = true ∧
    (setAlbumMaxSupply wState 1 1 0 = .error Err.ValidationError ∧
     exec wState (Op.setAlbumMaxSupply 1 1 0) = wState) ∧
    (setAlbumMaxSupply wState 1 1 9).isOk = true := by
  have h := max_supply_monotonic_floor wState 1 1 1 0 rfl rfl rfl
  have h9 := max_supply_monotonic_floor wState 1 1 1 9 rfl rfl rfl
  exact ⟨h.1 (by decide), by rw [h9.2.1 (by decide)]; rfl, h.2.2.1 (by decide),
    by rw [h9.2.2.2 (by decide)]; rfl⟩


/-- Claim C7 is refuted: the reentrancy guard does not wrap every mutating
entry point.  On a ledger whose guard is held (a mutating call in
progress), a nested mintTrack is not rejected with Reentrancy — it
succeeds, because only purchaseTrack carries the nonReentrant modifier. -/
theorem reentrancy_guard_not_global_cex :
    wEntered.entered = true ∧
    (mintTrack wEntered 1 1 2 t2name t2uri 5 2).isOk = true :=
  ⟨rfl, rfl⟩

/-- Claim C7 amended: only purchase is wrapped by the reentrancy guard — a
purchase attempted while the guard is held is rejected with Reentrancy and
leaves the state unchanged (the other mutating entry points perform no
reentrancy check, per the counterexample above). -/
theorem purchase_reentrancy_guard (s : State) (sender value tokenId : Nat)
    (po pc : Bool) (hp : s.paused = false) (he : s.entered = true) :
    purchaseTrack s sender value tokenId po pc = .error Err.Reentrancy ∧
    exec s (Op.purchaseTrack sender value tokenId po pc) = s := by
  have herr : purchaseTrack s sender value tokenId po pc = .error Err.Reentrancy := by
    simp [purchaseTrack, hp, he]
  exact ⟨herr, by simp [exec, runOp, stOf, herr]⟩

theorem purchase_reentrancy_guard_witness :
    purchaseTrack wEntered 2 150 1 true true = .error Err.Reentrancy ∧
    exec wEntered (Op.purchaseTrack 2 150 1 true true) = wEntered :=
  purchase_reentrancy_guard wEntered 2 150 1 true true rfl rfl

/-- Claim C10: updateTrackPrice and updateTrackSaleStatus modify only the
record of the given tokenId — one field of one track record — and leave
every other token, including the other issued copies of the same
(albumId, trackNumber), and all other storage untouched: price and sale
status live per issued copy. -/
theorem per_copy_price_and_sale_updates (s : State) (sender tokenId p : Nat) (b : Bool)
    (s2 s3 : State)
    (h : updateTrackPrice s sender tokenId p = .ok s2)
    (h2 : updateTrackSaleStatus s sender tokenId b = .ok s3) :
    (∀ t, t ≠ tokenId → s2.tracks t = s.tracks t) ∧
    s2.tracks tokenId = { s.tracks tokenId with minPrice := p } ∧
    s2.owners = s.owners ∧ s2.albums = s.albums ∧
    s2.albumTrackToToken = s.albumTrackToToken ∧ s2.tokenIds = s.tokenIds ∧
    (∀ t, t ≠ tokenId → s3.tracks t = s.tracks t) ∧
    s3.tracks tokenId = { s.tracks tokenId with isForSale := b } ∧
    s3.owners = s.owners ∧ s3.albums = s.albums ∧
    s3.albumTrackToToken = s.albumTrackToToken ∧ s3.tokenIds = s.tokenIds := by
  simp only [updateTrackPrice] at h
  split_ifs at h
  simp only [updateTrackSaleStatus] at h2
  split_ifs at h2
  injection h with hS
  injection h2 with hT
  subst hS
  subst hT
  refine ⟨fun t ht => upd_ne _ _ ht, by simp, rfl, rfl, rfl, rfl,
          fun t ht => upd_ne _ _ ht, by simp, rfl, rfl, rfl, rfl⟩

theorem per_copy_price_and_sale_updates_witness :
    (wPriced.tracks 1 = wCopies.tracks 1 ∧
     wPriced.tracks 1 = wCopies.tracks 1) ∧
    wPriced.tracks 2 = { wCopies.tracks 2 with minPrice := 777 } ∧
    wToggled.tracks 1 = wCopies.tracks 1 ∧
    wToggled.tracks 2 = { wCopies.tracks 2 with isForSale := false } := by
  have h := per_copy_price_and_sale_updates wCopies 1 2 777 false wPriced wToggled rfl rfl
  exact ⟨⟨h.1 1 (by decide), h.1 1 (by decide)⟩, h.2.1, h.2.2.2.2.2.2.1 1 (by decide),
    h.2.2.2.2.2.2.2.1⟩


theorem setRoyalty_pause_indep (s : State) (sender c k : Nat) :
    setRoyalty s sender c k =
      Except.map (fun s2 => { s2 with paused := s.paused })
        (setRoyalty { s with paused := false } sender c k) := by
  simp only [setRoyalty]
  split_ifs <;> rfl

theorem setTrackMaxSupply_pause_indep (s : State) (sender a n m : Nat) :
    setTrackMaxSupply s sender a n m =
      Except.map (fun s2 => { s2 with paused := s.paused })
        (setTrackMaxSupply { s with paused := false } sender a n m) := by
  simp only [setTrackMaxSupply]
  split_ifs <;> rfl

theorem setAlbumMaxSupply_pause_indep (s : State) (sender a m : Nat) :
    setAlbumMaxSupply s sender a m =
      Except.map (fun s2 => { s2 with paused := s.paused })
        (setAlbumMaxSupply { s with paused := false } sender a m) := by
  simp only [setAlbumMaxSupply]
  split_ifs <;> rfl

theorem updateTrackPrice_pause_indep (s : State) (sender t p : Nat) :
    updateTrackPrice s sender t p =
      Except.map (fun s2 => { s2 with paused := s.paused })
        (updateTrackPrice { s with paused := false } sender t p) := by
  simp only [updateTrackPrice]
  split_ifs <;> rfl

theorem updateTrackSaleStatus_pause_indep (s : State) (sender t : Nat) (b : Bool) :
    updateTrackSaleStatus s sender t b =
      Except.map (fun s2 => { s2 with paused := s.paused })
        (updateTrackSaleStatus { s with paused := false } sender t b) := by
  simp only [updateTrackSaleStatus]
  split_ifs <;> rfl

theorem reads_pause_indep (s : State) (a n t : Nat) :
    getAlbumTracks s a = getAlbumTracks { s with paused := false } a ∧
    getTrackSupply s a n = getTrackSupply { s with paused := false } a n ∧
    getAlbumSupply s a = getAlbumSupply { s with paused := false } a ∧
    tokenURI s t = tokenURI { s with paused := false } t ∧
    existsToken s t = existsToken { s with paused := false } t ∧
    totalAlbums s = totalAlbums { s with paused := false } ∧
    totalSupply s = totalSupply { s with paused := false } :=
  ⟨rfl, rfl, rfl, rfl, rfl, rfl, rfl⟩


/-- Claim C8: while paused, purchase always fails with SystemPaused for
every caller, and mintTrack and mintAdditionalCopy fail with SystemPaused
for the owner (for anyone else the onlyOwner check, which runs before the
pause check, already rejects them) — in all cases changing no state; the
five administrative setters behave exactly as in the Active state (same
success/failure and same effect, the pause flag simply carried along) and
every read-only operation is untouched by the flag; the constructor state
is Active. -/
theorem pause_gates_mints_and_purchase_only (s : State)
    (sender albumId trackNumber tokenId value newMax c k d c0 k0 : Nat)
    (name uri : String) (minPrice maxSupply : Nat) (po pc b : Bool)
    (hpause : s.paused = true) :
    (sender = s.owner →
     mintTrack s sender albumId trackNumber name uri minPrice maxSupply =
        .error Err.SystemPaused ∧
     exec s (Op.mintTrack sender albumId trackNumber name uri minPrice maxSupply) = s) ∧
    (sender = s.owner →
     mintAdditionalCopy s sender albumId trackNumber = .error Err.SystemPaused ∧
     exec s (Op.mintAdditionalCopy sender albumId trackNumber) = s) ∧
    (purchaseTrack s sender value tokenId po pc = .error Err.SystemPaused ∧
     exec s (Op.purchaseTrack sender value tokenId po pc) = s) ∧
    setRoyalty s sender c k =
      Except.map (fun s2 => { s2 with paused := s.paused })
        (setRoyalty { s with paused := false } sender c k) ∧
    setTrackMaxSupply s sender albumId trackNumber newMax =
      Except.map (fun s2 => { s2 with paused := s.paused })
        (setTrackMaxSupply { s with paused := false } sender albumId trackNumber newMax) ∧
    setAlbumMaxSupply s sender albumId newMax =
      Except.map (fun s2 => { s2 with paused := s.paused })
        (setAlbumMaxSupply { s with paused := false } sender albumId newMax) ∧
    updateTrackPrice s sender tokenId newMax =
      Except.map (fun s2 => { s2 with paused := s.paused })
        (updateTrackPrice { s with paused := false } sender tokenId newMax) ∧
    updateTrackSaleStatus s sender tokenId b =
      Except.map (fun s2 => { s2 with paused := s.paused })
        (updateTrackSaleStatus { s with paused := false } sender tokenId b) ∧
    getAlbumTracks s albumId = getAlbumTracks { s with paused := false } albumId ∧
    getTrackSupply s albumId trackNumber =
      getTrackSupply { s with paused := false } albumId trackNumber ∧
    getAlbumSupply s albumId = getAlbumSupply { s with paused := false } albumId ∧
    tokenURI s tokenId = tokenURI { s with paused := false } tokenId ∧
    existsToken s tokenId = existsToken { s with paused := false } tokenId ∧
    totalAlbums s = totalAlbums { s with paused := false } ∧
    totalSupply s = totalSupply { s with paused := false } ∧
    (initState d c0 k0).paused = false := by
  have hpu : purchaseTrack s sender value tokenId po pc = .error Err.SystemPaused := by
    simp [purchaseTrack, hpause]
  refine ⟨?_, ?_,
          ⟨hpu, by simp [exec, runOp, stOf, hpu]⟩,
          setRoyalty_pause_indep s sender c k,
          setTrackMaxSupply_pause_indep s sender albumId trackNumber newMax,
          setAlbumMaxSupply_pause_indep s sender albumId newMax,
          updateTrackPrice_pause_indep s sender tokenId newMax,
          updateTrackSaleStatus_pause_indep s sender tokenId b,
          rfl, rfl, rfl, rfl, rfl, rfl, rfl, rfl⟩
  · intro hs
    have hm : mintTrack s sender albumId trackNumber name uri minPrice maxSupply =
        .error Err.SystemPaused := by
      simp [mintTrack, hs, hpause]
    exact ⟨hm, by simp [exec, runOp, stOf, hm]⟩
  · intro hs
    have hc : mintAdditionalCopy s sender albumId trackNumber =
        .error Err.SystemPaused := by
      simp [mintAdditionalCopy, hs, hpause]
    exact ⟨hc, by simp [exec, runOp, stOf, hc]⟩

theorem pause_gates_mints_and_purchase_only_witness :
    (mintTrack wPaused 1 1 2 t2name t2uri 5 2 = .error Err.SystemPaused ∧
     exec wPaused (Op.mintTrack 1 1 2 t2name t2uri 5 2) = wPaused) ∧
    (purchaseTrack wPaused 2 150 1 true true = .error Err.SystemPaused ∧
     exec wPaused (Op.purchaseTrack 2 150 1 true true) = wPaused) ∧
    getAlbumTracks wPaused 1 = getAlbumTracks { wPaused with paused := false } 1 ∧
    (initState 1 10 90).paused = false := by
  have h1 := pause_gates_mints_and_purchase_only wPaused 1 1 2 1 150 9 10 90 1 10 90
    t2name t2uri 5 2 true true false rfl
  have h2 := pause_gates_mints_and_purchase_only wPaused 2 1 2 1 150 9 10 90 1 10 90
    t2name t2uri 5 2 true true false rfl
  exact ⟨h1.1 rfl, h2.2.2.1, h1.2.2.2.2.2.2.2.2.1,
    h1.2.2.2.2.2.2.2.2.2.2.2.2.2.2.2⟩


/-- Number of issued copies (existing tokens) whose record points at album
`a`: tokens carry their album in the `albumId` field of their record, and
token ids are exactly `1 .. s.tokenIds`. -/
def issuedCopies (s : State) (a : Nat) : Nat :=
  ((Finset.range s.tokenIds).filter (fun i => (s.tracks (i + 1)).albumId = a)).card

theorem issued_congr {f g : Nat → Track} {n a : Nat}
    (h : ∀ i, i < n → (f (i + 1)).albumId = (g (i + 1)).albumId) :
    ((Finset.range n).filter (fun i => (f (i + 1)).albumId = a)).card =
    ((Finset.range n).filter (fun i => (g (i + 1)).albumId = a)).card := by
  congr 1
  apply Finset.filter_congr
  intro x hx
  rw [h x (Finset.mem_range.mp hx)]

theorem issued_succ (f : Nat → Track) (n a : Nat) :
    ((Finset.range (n + 1)).filter (fun i => (f (i + 1)).albumId = a)).card =
    ((Finset.range n).filter (fun i => (f (i + 1)).albumId = a)).card +
      (if (f (n + 1)).albumId = a then 1 else 0) := by
  rw [Finset.range_succ, Finset.filter_insert]
  split_ifs with h
  · have hnot : n ∉ (Finset.range n).filter (fun i => (f (i + 1)).albumId = a) := by
      simp
    rw [Finset.card_insert_of_not_mem hnot]
  · simp

/-- Inductive invariant of reachable ledger states: unissued ids hold zero
records, every track record points back into the created albums, the
slot-to-token mapping is canonical, album counters agree with the number of
issued copies, and every supply counter respects its cap. -/
structure Good (s : State) : Prop where
  albumsDefault : ∀ a, a = 0 ∨ s.albumIds < a → s.albums a = defaultAlbum
  tracksDefault : ∀ t, t = 0 ∨ s.tokenIds < t → s.tracks t = defaultTrack
  ownersDefault : ∀ t, t = 0 ∨ s.tokenIds < t → s.owners t = 0
  albumIdBounds : ∀ t, 1 ≤ t → t ≤ s.tokenIds →
    1 ≤ (s.tracks t).albumId ∧ (s.tracks t).albumId ≤ s.albumIds
  slotCanonical : ∀ a n, (s.albums a).trackExists n = true →
    1 ≤ s.albumTrackToToken a n ∧ s.albumTrackToToken a n ≤ s.tokenIds ∧
    (s.tracks (s.albumTrackToToken a n)).albumId = a
  albumCount : ∀ a, (s.albums a).exists_ = true →
    (s.albums a).currentSupply = issuedCopies s a
  albumBound : ∀ a, (s.albums a).currentSupply ≤ (s.albums a).maxSupply
  trackBound : ∀ t, (s.tracks t).currentSupply ≤ (s.tracks t).maxSupply

theorem Good.albumExistsBounds {s : State} (hg : Good s) {a : Nat}
    (ha : (s.albums a).exists_ = true) : 1 ≤ a ∧ a ≤ s.albumIds := by
  have hnd : ¬(a = 0 ∨ s.albumIds < a) := by
    intro hd
    rw [hg.albumsDefault a hd] at ha
    simp [defaultAlbum] at ha
  omega

theorem Good_init (d c k : Nat) : Good (initState d c k) := by
  refine ⟨?_, ?_, ?_, ?_, ?_, ?_, ?_, ?_⟩ <;>
    simp [initState, defaultAlbum, defaultTrack, issuedCopies] <;> omega

theorem stOf_ok {α : Type} {r : Except Err (State × α)} {s2 : State}
    (h : stOf r = .ok s2) : ∃ v, r = .ok (s2, v) := by
  cases r with
  | error e => simp [stOf] at h
  | ok p =>
    obtain ⟨s1, v⟩ := p
    simp only [stOf, Except.ok.injEq] at h
    exact ⟨v, by rw [h]⟩


theorem createAlbum_inv {s : State} {sender : Nat} {name uri : String} {tt ms : Nat}
    {s2 : State} {rid : Nat}
    (h : createAlbum s sender name uri tt ms = .ok (s2, rid)) :
    sender = s.owner ∧ tt ≠ 0 ∧ ms ≠ 0 ∧ rid = s.albumIds + 1 ∧
    s2 = { s with
             albumIds := s.albumIds + 1
             albums := upd s.albums (s.albumIds + 1)
               { name := name
                 uri := uri
                 totalTracks := tt
                 maxSupply := ms
                 currentSupply := 0
                 trackExists := (s.albums (s.albumIds + 1)).trackExists
                 exists_ := true } } := by
  simp only [createAlbum] at h
  split_ifs at h with h1 h2 h3 h4 h5
  injection h with hh
  injection hh with hS hR
  exact ⟨h1, h4, h5, hR.symm, hS.symm⟩

theorem mintTrack_inv {s : State} {sender albumId trackNumber : Nat}
    {name uri : String} {minPrice maxSupply : Nat} {s2 : State} {tid : Nat}
    (h : mintTrack s sender albumId trackNumber name uri minPrice maxSupply =
      .ok (s2, tid)) :
    sender = s.owner ∧ s.paused = false ∧ (s.albums albumId).exists_ = true ∧
    (0 < trackNumber ∧ trackNumber ≤ (s.albums albumId).totalTracks) ∧
    (s.albums albumId).trackExists trackNumber = false ∧
    maxSupply ≠ 0 ∧ sender ≠ 0 ∧ s.owners (s.tokenIds + 1) = 0 ∧
    (s.albums albumId).currentSupply + 1 ≤ (s.albums albumId).maxSupply ∧
    tid = s.tokenIds + 1 ∧
    s2 = { s with
             tokenIds := s.tokenIds + 1
             owners := upd s.owners (s.tokenIds + 1) sender
             tracks := upd s.tracks (s.tokenIds + 1)
               { name := name
                 uri := uri
                 albumId := albumId
                 trackNumber := trackNumber
                 minPrice := minPrice
                 maxSupply := maxSupply
                 currentSupply := 1
                 isForSale := true
                 creator := sender }
             albums := upd s.albums albumId
               { s.albums albumId with
                   trackExists := upd (s.albums albumId).trackExists trackNumber true
                   currentSupply := (s.albums albumId).currentSupply + 1 }
             albumTrackToToken :=
               upd s.albumTrackToToken albumId
                 (upd (s.albumTrackToToken albumId) trackNumber (s.tokenIds + 1)) } := by
  simp only [mintTrack] at h
  by_cases hc1 : sender = s.owner
  case neg => rw [if_neg hc1] at h; exact Except.noConfusion h
  rw [if_pos hc1] at h
  by_cases hc2 : s.paused = true
  case pos => rw [if_pos hc2] at h; exact Except.noConfusion h
  rw [if_neg hc2] at h
  by_cases hc3 : (s.albums albumId).exists_ = true
  case neg => rw [if_neg hc3] at h; exact Except.noConfusion h
  rw [if_pos hc3] at h
  by_cases hc4 : 0 < trackNumber ∧ trackNumber ≤ (s.albums albumId).totalTracks
  case neg => rw [if_neg hc4] at h; exact Except.noConfusion h
  rw [if_pos hc4] at h
  by_cases hc5 : (s.albums albumId).trackExists trackNumber = true
  case pos => rw [if_pos hc5] at h; exact Except.noConfusion h
  rw [if_neg hc5] at h
  by_cases hc6 : name = ""
  case pos => rw [if_pos hc6] at h; exact Except.noConfusion h
  rw [if_neg hc6] at h
  by_cases hc7 : uri = ""
  case pos => rw [if_pos hc7] at h; exact Except.noConfusion h
  rw [if_neg hc7] at h
  by_cases hc8 : maxSupply = 0
  case pos => rw [if_pos hc8] at h; exact Except.noConfusion h
  rw [if_neg hc8] at h
  by_cases hc9 : sender = 0
  case pos => rw [if_pos hc9] at h; exact Except.noConfusion h
  rw [if_neg hc9] at h
  by_cases hc10 : s.owners (s.tokenIds + 1) = 0
  case neg => rw [if_neg hc10] at h; exact Except.noConfusion h
  rw [if_pos hc10] at h
  by_cases hc11 : (s.albums albumId).currentSupply + 1 ≤ (s.albums albumId).maxSupply
  case neg => rw [if_neg hc11] at h; exact Except.noConfusion h
  rw [if_pos hc11] at h
  injection h with hh
  injection hh with hS hT
  exact ⟨hc1, by simpa using hc2, hc3, hc4, by simpa using hc5, hc8, hc9, hc10,
    hc11, hT.symm, hS.symm⟩

theorem mintAdditionalCopy_inv {s : State} {sender albumId trackNumber : Nat}
    {s2 : State} {tid : Nat}
    (h : mintAdditionalCopy s sender albumId trackNumber = .ok (s2, tid)) :
    sender = s.owner ∧ s.paused = false ∧ (s.albums albumId).exists_ = true ∧
    (s.albums albumId).trackExists trackNumber = true ∧
    (s.tracks (s.albumTrackToToken albumId trackNumber)).currentSupply <
      (s.tracks (s.albumTrackToToken albumId trackNumber)).maxSupply ∧
    (s.albums albumId).currentSupply < (s.albums albumId).maxSupply ∧
    sender ≠ 0 ∧ s.owners (s.tokenIds + 1) = 0 ∧
    tid = s.tokenIds + 1 ∧
    s2 = { s with
             tokenIds := s.tokenIds + 1
             owners := upd s.owners (s.tokenIds + 1) sender
             tracks :=
               upd
                 (upd s.tracks (s.tokenIds + 1)
                   { s.tracks (s.albumTrackToToken albumId trackNumber) with
                       currentSupply :=
                         (s.tracks (s.albumTrackToToken albumId trackNumber)).currentSupply + 1
                       isForSale := true })
                 (s.albumTrackToToken albumId trackNumber)
                 { upd s.tracks (s.tokenIds + 1)
                     { s.tracks (s.albumTrackToToken albumId trackNumber) with
                         currentSupply :=
                           (s.tracks (s.albumTrackToToken albumId trackNumber)).currentSupply + 1
                         isForSale := true }
                     (s.albumTrackToToken albumId trackNumber) with
                     currentSupply :=
                       (upd s.tracks (s.tokenIds + 1)
                         { s.tracks (s.albumTrackToToken albumId trackNumber) with
                             currentSupply :=
                               (s.tracks (s.albumTrackToToken albumId trackNumber)).currentSupply + 1
                             isForSale := true }
                         (s.albumTrackToToken albumId trackNumber)).currentSupply + 1 }
             albums := upd s.albums albumId
               { s.albums albumId with
                   currentSupply := (s.albums albumId).currentSupply + 1 } } := by
  simp only [mintAdditionalCopy] at h
  by_cases hc1 : sender = s.owner
  case neg => rw [if_neg hc1] at h; exact Except.noConfusion h
  rw [if_pos hc1] at h
  by_cases hc2 : s.paused = true
  case pos => rw [if_pos hc2] at h; exact Except.noConfusion h
  rw [if_neg hc2] at h
  by_cases hc3 : (s.albums albumId).exists_ = true
  case neg => rw [if_neg hc3] at h; exact Except.noConfusion h
  rw [if_pos hc3] at h
  by_cases hc4 : (s.albums albumId).trackExists trackNumber = true
  case neg => rw [if_neg hc4] at h; exact Except.noConfusion h
  rw [if_pos hc4] at h
  by_cases hc5 : (s.tracks (s.albumTrackToToken albumId trackNumber)).currentSupply <
      (s.tracks (s.albumTrackToToken albumId trackNumber)).maxSupply
  case neg => rw [if_neg hc5] at h; exact Except.noConfusion h
  rw [if_pos hc5] at h
  by_cases hc6 : (s.albums albumId).currentSupply < (s.albums albumId).maxSupply
  case neg => rw [if_neg hc6] at h; exact Except.noConfusion h
  rw [if_pos hc6] at h
  by_cases hc7 : sender = 0
  case pos => rw [if_pos hc7] at h; exact Except.noConfusion h
  rw [if_neg hc7] at h
  by_cases hc8 : s.owners (s.tokenIds + 1) = 0
  case neg => rw [if_neg hc8] at h; exact Except.noConfusion h
  rw [if_pos hc8] at h
  injection h with hh
  injection hh with hS hT
  exact ⟨hc1, by simpa using hc2, hc3, hc4, hc5, hc6, hc7, hc8, hT.symm, hS.symm⟩


theorem purchaseTrack_inv {s : State} {sender value tokenId : Nat} {po pc : Bool}
    {s2 : State} {pays : List (Nat × Nat)}
    (h : purchaseTrack s sender value tokenId po pc = .ok (s2, pays)) :
    s.paused = false ∧ s.entered = false ∧ s.owners tokenId ≠ 0 ∧
    (s.tracks tokenId).isForSale = true ∧
    (s.tracks tokenId).minPrice ≤ value ∧
    sender ≠ s.owners tokenId ∧ sender ≠ 0 ∧
    s2 = { s with
             owners := upd s.owners tokenId sender
             tracks := upd s.tracks tokenId
               { s.tracks tokenId with isForSale := false } } := by
  simp only [purchaseTrack, ROYALTY_DENOM] at h
  split_ifs at h with h1 h2 h3 h4 h5 h6 h7
  injection h with hh
  injection hh with hS hP
  exact ⟨by simpa using h1, by simpa using h2, h3, h4, by simpa using h5, h6, h7,
    hS.symm⟩

theorem setRoyalty_inv {s : State} {sender c k : Nat} {s2 : State}
    (h : setRoyalty s sender c k = .ok s2) :
    sender = s.owner ∧ c + k = 100 ∧
    s2 = { s with creatorRoyalty := c, sellerRoyalty := k } := by
  simp only [setRoyalty, ROYALTY_DENOM] at h
  split_ifs at h with h1 h2
  injection h with hS
  exact ⟨h1, h2, hS.symm⟩

theorem setTrackMaxSupply_inv {s : State} {sender albumId trackNumber newMax : Nat}
    {s2 : State}
    (h : setTrackMaxSupply s sender albumId trackNumber newMax = .ok s2) :
    sender = s.owner ∧ (s.albums albumId).exists_ = true ∧
    (s.albums albumId).trackExists trackNumber = true ∧
    (s.tracks (s.albumTrackToToken albumId trackNumber)).currentSupply ≤ newMax ∧
    s2 = { s with
             tracks := upd s.tracks (s.albumTrackToToken albumId trackNumber)
               { s.tracks (s.albumTrackToToken albumId trackNumber) with
                   maxSupply := newMax } } := by
  simp only [setTrackMaxSupply] at h
  split_ifs at h with h1 h2 h3 h4
  injection h with hS
  exact ⟨h1, h2, h3, h4, hS.symm⟩

theorem setAlbumMaxSupply_inv {s : State} {sender albumId newMax : Nat} {s2 : State}
    (h : setAlbumMaxSupply s sender albumId newMax = .ok s2) :
    sender = s.owner ∧ (s.albums albumId).exists_ = true ∧
    (s.albums albumId).currentSupply ≤ newMax ∧
    s2 = { s with
             albums := upd s.albums albumId
               { s.albums albumId with maxSupply := newMax } } := by
  simp only [setAlbumMaxSupply] at h
  split_ifs at h with h1 h2 h3
  injection h with hS
  exact ⟨h1, h2, h3, hS.symm⟩

theorem updateTrackPrice_inv {s : State} {sender tokenId p : Nat} {s2 : State}
    (h : updateTrackPrice s sender tokenId p = .ok s2) :
    sender = s.owner ∧ s.owners tokenId ≠ 0 ∧
    s2 = { s with
             tracks := upd s.tracks tokenId
               { s.tracks tokenId with minPrice := p } } := by
  simp only [updateTrackPrice] at h
  split_ifs at h with h1 h2
  injection h with hS
  exact ⟨h1, h2, hS.symm⟩

theorem updateTrackSaleStatus_inv {s : State} {sender tokenId : Nat} {b : Bool}
    {s2 : State}
    (h : updateTrackSaleStatus s sender tokenId b = .ok s2) :
    sender = s.owner ∧ s.owners tokenId ≠ 0 ∧
    s2 = { s with
             tracks := upd s.tracks tokenId
               { s.tracks tokenId with isForSale := b } } := by
  simp only [updateTrackSaleStatus] at h
  split_ifs at h with h1 h2
  injection h with hS
  exact ⟨h1, h2, hS.symm⟩

theorem pause_inv {s : State} {sender : Nat} {s2 : State}
    (h : pause s sender = .ok s2) :
    sender = s.owner ∧ s.paused = false ∧ s2 = { s with paused := true } := by
  simp only [pause] at h
  split_ifs at h with h1 h2
  injection h with hS
  exact ⟨h1, by simpa using h2, hS.symm⟩

theorem unpause_inv {s : State} {sender : Nat} {s2 : State}
    (h : unpause s sender = .ok s2) :
    sender = s.owner ∧ s.paused = true ∧ s2 = { s with paused := false } := by
  simp only [unpause] at h
  split_ifs at h with h1 h2
  injection h with hS
  exact ⟨h1, h2, hS.symm⟩


theorem Good.tokenExistsBounds {s : State} (hg : Good s) {t : Nat}
    (ht : s.owners t ≠ 0) : 1 ≤ t ∧ t ≤ s.tokenIds := by
  have hnd : ¬(t = 0 ∨ s.tokenIds < t) := fun hd => ht (hg.ownersDefault t hd)
  omega

theorem Good_setRoyalty {s : State} {sender c k : Nat} {s2 : State}
    (hg : Good s) (h : setRoyalty s sender c k = .ok s2) : Good s2 := by
  obtain ⟨-, -, hS⟩ := setRoyalty_inv h
  subst hS
  exact ⟨hg.albumsDefault, hg.tracksDefault, hg.ownersDefault, hg.albumIdBounds,
    hg.slotCanonical, hg.albumCount, hg.albumBound, hg.trackBound⟩

theorem Good_pause {s : State} {sender : Nat} {s2 : State}
    (hg : Good s) (h : pause s sender = .ok s2) : Good s2 := by
  obtain ⟨-, -, hS⟩ := pause_inv h
  subst hS
  exact ⟨hg.albumsDefault, hg.tracksDefault, hg.ownersDefault, hg.albumIdBounds,
    hg.slotCanonical, hg.albumCount, hg.albumBound, hg.trackBound⟩

theorem Good_unpause {s : State} {sender : Nat} {s2 : State}
    (hg : Good s) (h : unpause s sender = .ok s2) : Good s2 := by
  obtain ⟨-, -, hS⟩ := unpause_inv h
  subst hS
  exact ⟨hg.albumsDefault, hg.tracksDefault, hg.ownersDefault, hg.albumIdBounds,
    hg.slotCanonical, hg.albumCount, hg.albumBound, hg.trackBound⟩


theorem Good_tracks_upd {s : State} (hg : Good s) {k : Nat} {r : Track}
    (hk1 : 1 ≤ k) (hk2 : k ≤ s.tokenIds)
    (ha : r.albumId = (s.tracks k).albumId)
    (hb : r.currentSupply ≤ r.maxSupply) :
    Good { s with tracks := upd s.tracks k r } := by
  refine ⟨hg.albumsDefault, ?_, hg.ownersDefault, ?_, ?_, ?_, hg.albumBound, ?_⟩
  · intro t hd
    dsimp only at hd ⊢
    rw [upd_ne _ _ (by omega)]
    exact hg.tracksDefault t hd
  · intro t h1 h2
    dsimp only at h1 h2 ⊢
    by_cases ht : t = k
    · rw [ht, upd_self, ha]
      exact hg.albumIdBounds k (ht ▸ h1) (ht ▸ h2)
    · rw [upd_ne _ _ ht]
      exact hg.albumIdBounds t h1 h2
  · intro a n hex
    dsimp only at hex ⊢
    obtain ⟨m1, m2, m3⟩ := hg.slotCanonical a n hex
    refine ⟨m1, m2, ?_⟩
    by_cases hm : s.albumTrackToToken a n = k
    · rw [hm, upd_self, ha, ← hm]
      exact m3
    · rw [upd_ne _ _ hm]
      exact m3
  · intro a hex
    dsimp only at hex ⊢
    have hcong : issuedCopies { s with tracks := upd s.tracks k r } a = issuedCopies s a := by
      unfold issuedCopies
      exact issued_congr (fun i hi => by
        dsimp only
        by_cases hti : i + 1 = k
        · rw [hti, upd_self, ha]
        · rw [upd_ne _ _ hti])
    rw [hcong]
    exact hg.albumCount a hex
  · intro t
    dsimp only
    by_cases ht : t = k
    · rw [ht, upd_self]
      exact hb
    · rw [upd_ne _ _ ht]
      exact hg.trackBound t

theorem Good_owners_upd {s : State} (hg : Good s) {k v : Nat}
    (hk1 : 1 ≤ k) (hk2 : k ≤ s.tokenIds) :
    Good { s with owners := upd s.owners k v } := by
  refine ⟨hg.albumsDefault, hg.tracksDefault, ?_, hg.albumIdBounds,
    hg.slotCanonical, hg.albumCount, hg.albumBound, hg.trackBound⟩
  intro t hd
  dsimp only at hd ⊢
  rw [upd_ne _ _ (by omega)]
  exact hg.ownersDefault t hd

theorem Good_purchaseTrack {s : State} {sender value tokenId : Nat} {po pc : Bool}
    {s2 : State} {pays : List (Nat × Nat)}
    (hg : Good s) (h : purchaseTrack s sender value tokenId po pc = .ok (s2, pays)) :
    Good s2 := by
  obtain ⟨-, -, h3, -, -, -, -, hS⟩ := purchaseTrack_inv h
  obtain ⟨htl, htu⟩ := hg.tokenExistsBounds h3
  subst hS
  exact Good_tracks_upd (Good_owners_upd hg htl htu) htl htu rfl (hg.trackBound tokenId)

theorem Good_updateTrackPrice {s : State} {sender tokenId p : Nat} {s2 : State}
    (hg : Good s) (h : updateTrackPrice s sender tokenId p = .ok s2) : Good s2 := by
  obtain ⟨-, h2, hS⟩ := updateTrackPrice_inv h
  obtain ⟨htl, htu⟩ := hg.tokenExistsBounds h2
  subst hS
  exact Good_tracks_upd hg htl htu rfl (hg.trackBound tokenId)

theorem Good_updateTrackSaleStatus {s : State} {sender tokenId : Nat} {b : Bool}
    {s2 : State}
    (hg : Good s) (h : updateTrackSaleStatus s sender tokenId b = .ok s2) : Good s2 := by
  obtain ⟨-, h2, hS⟩ := updateTrackSaleStatus_inv h
  obtain ⟨htl, htu⟩ := hg.tokenExistsBounds h2
  subst hS
  exact Good_tracks_upd hg htl htu rfl (hg.trackBound tokenId)

theorem Good_setTrackMaxSupply {s : State} {sender albumId trackNumber newMax : Nat}
    {s2 : State}
    (hg : Good s) (h : setTrackMaxSupply s sender albumId trackNumber newMax = .ok s2) :
    Good s2 := by
  obtain ⟨-, -, h3, h4, hS⟩ := setTrackMaxSupply_inv h
  obtain ⟨m1, m2, -⟩ := hg.slotCanonical albumId trackNumber h3
  subst hS
  exact Good_tracks_upd hg m1 m2 rfl h4


theorem Good_setAlbumMaxSupply {s : State} {sender albumId newMax : Nat} {s2 : State}
    (hg : Good s) (h : setAlbumMaxSupply s sender albumId newMax = .ok s2) : Good s2 := by
  obtain ⟨-, hex, hle, hS⟩ := setAlbumMaxSupply_inv h
  obtain ⟨hA1, hA2⟩ := hg.albumExistsBounds hex
  subst hS
  refine ⟨?_, hg.tracksDefault, hg.ownersDefault, hg.albumIdBounds, ?_, ?_, ?_,
    hg.trackBound⟩
  · intro a hd
    dsimp only at hd ⊢
    rw [upd_ne _ _ (by omega)]
    exact hg.albumsDefault a hd
  · intro a n hx
    dsimp only at hx ⊢
    by_cases ha : a = albumId
    · subst ha
      rw [upd_self] at hx
      exact hg.slotCanonical a n hx
    · rw [upd_ne _ _ ha] at hx
      exact hg.slotCanonical a n hx
  · intro a hx
    dsimp only at hx ⊢
    by_cases ha : a = albumId
    · subst ha
      rw [upd_self] at hx ⊢
      exact hg.albumCount a hex
    · rw [upd_ne _ _ ha] at hx ⊢
      exact hg.albumCount a hx
  · intro a
    dsimp only
    by_cases ha : a = albumId
    · subst ha
      rw [upd_self]
      exact hle
    · rw [upd_ne _ _ ha]
      exact hg.albumBound a

theorem Good_createAlbum {s : State} {sender : Nat} {name uri : String} {tt ms : Nat}
    {s2 : State} {rid : Nat}
    (hg : Good s) (h : createAlbum s sender name uri tt ms = .ok (s2, rid)) :
    Good s2 := by
  obtain ⟨-, -, -, -, hS⟩ := createAlbum_inv h
  have hdef : s.albums (s.albumIds + 1) = defaultAlbum :=
    hg.albumsDefault _ (Or.inr (by omega))
  subst hS
  refine ⟨?_, hg.tracksDefault, hg.ownersDefault, ?_, ?_, ?_, ?_, hg.trackBound⟩
  · intro a hd
    dsimp only at hd ⊢
    rw [upd_ne _ _ (by omega)]
    exact hg.albumsDefault a (by omega)
  · intro t h1 h2
    dsimp only at h1 h2 ⊢
    obtain ⟨b1, b2⟩ := hg.albumIdBounds t h1 h2
    omega
  · intro a n hx
    dsimp only at hx ⊢
    by_cases ha : a = s.albumIds + 1
    · subst ha
      rw [upd_self] at hx
      dsimp only at hx
      rw [hdef] at hx
      simp [defaultAlbum] at hx
    · rw [upd_ne _ _ ha] at hx
      exact hg.slotCanonical a n hx
  · intro a hx
    dsimp only at hx ⊢
    by_cases ha : a = s.albumIds + 1
    · subst ha
      rw [upd_self]
      dsimp only
      unfold issuedCopies
      dsimp only
      have hempty :
          (Finset.range s.tokenIds).filter
            (fun i => (s.tracks (i + 1)).albumId = s.albumIds + 1) = ∅ := by
        apply Finset.filter_false_of_mem
        intro x hxm
        have hxr := Finset.mem_range.mp hxm
        obtain ⟨b1, b2⟩ := hg.albumIdBounds (x + 1) (by omega) (by omega)
        omega
      rw [hempty]
      rfl
    · rw [upd_ne _ _ ha] at hx ⊢
      rw [hg.albumCount a hx]
      unfold issuedCopies
      dsimp only
  · intro a
    dsimp only
    by_cases ha : a = s.albumIds + 1
    · subst ha
      rw [upd_self]
      exact Nat.zero_le _
    · rw [upd_ne _ _ ha]
      exact hg.albumBound a


theorem Good_mintTrack {s : State} {sender albumId trackNumber : Nat}
    {name uri : String} {minPrice maxSupply : Nat} {s2 : State} {tid : Nat}
    (hg : Good s)
    (h : mintTrack s sender albumId trackNumber name uri minPrice maxSupply =
      .ok (s2, tid)) : Good s2 := by
  obtain ⟨-, -, hex, -, -, hms, -, -, hcap, -, hS⟩ := mintTrack_inv h
  obtain ⟨hA1, hA2⟩ := hg.albumExistsBounds hex
  subst hS
  refine ⟨?_, ?_, ?_, ?_, ?_, ?_, ?_, ?_⟩
  · intro a hd
    dsimp only at hd ⊢
    rw [upd_ne _ _ (by omega)]
    exact hg.albumsDefault a hd
  · intro t hd
    dsimp only at hd ⊢
    rw [upd_ne _ _ (by omega)]
    exact hg.tracksDefault t (by omega)
  · intro t hd
    dsimp only at hd ⊢
    rw [upd_ne _ _ (by omega)]
    exact hg.ownersDefault t (by omega)
  · intro t h1 h2
    dsimp only at h1 h2 ⊢
    by_cases ht : t = s.tokenIds + 1
    · rw [ht, upd_self]
      dsimp only
      omega
    · rw [upd_ne _ _ ht]
      obtain ⟨b1, b2⟩ := hg.albumIdBounds t h1 (by omega)
      omega
  · intro a n hx
    dsimp only at hx ⊢
    by_cases ha : a = albumId
    · subst ha
      rw [upd_self] at hx
      dsimp only at hx
      rw [upd_self]
      by_cases hn : n = trackNumber
      · subst hn
        rw [upd_self]
        refine ⟨by omega, by omega, ?_⟩
        rw [upd_self]
      · rw [upd_ne _ _ hn] at hx
        rw [upd_ne _ _ hn]
        obtain ⟨m1, m2, m3⟩ := hg.slotCanonical a n hx
        refine ⟨m1, by omega, ?_⟩
        rw [upd_ne _ _ (by omega)]
        exact m3
    · rw [upd_ne _ _ ha] at hx
      rw [upd_ne _ _ ha]
      obtain ⟨m1, m2, m3⟩ := hg.slotCanonical a n hx
      refine ⟨m1, by omega, ?_⟩
      rw [upd_ne _ _ (by omega)]
      exact m3
  · intro a hx
    dsimp only at hx ⊢
    unfold issuedCopies
    dsimp only
    rw [issued_succ]
    have hpre :
        ((Finset.range s.tokenIds).filter
          (fun i =>
            ((upd s.tracks (s.tokenIds + 1)
              { name := name, uri := uri, albumId := albumId,
                trackNumber := trackNumber, minPrice := minPrice,
                maxSupply := maxSupply, currentSupply := 1, isForSale := true,
                creator := sender } (i + 1)).albumId = a))).card =
        ((Finset.range s.tokenIds).filter
          (fun i => ((s.tracks (i + 1)).albumId = a))).card := by
      exact issued_congr (fun i hi => by rw [upd_ne _ _ (by omega)])
    rw [hpre, upd_self]
    dsimp only
    by_cases ha : a = albumId
    · subst ha
      rw [upd_self] at hx ⊢
      dsimp only at hx ⊢
      rw [if_pos rfl]
      rw [hg.albumCount a hex]
      rfl
    · rw [upd_ne _ _ ha] at hx ⊢
      rw [if_neg (fun hh => ha hh.symm)]
      rw [hg.albumCount a hx]
      rfl
  · intro a
    dsimp only
    by_cases ha : a = albumId
    · subst ha
      rw [upd_self]
      dsimp only
      exact hcap
    · rw [upd_ne _ _ ha]
      exact hg.albumBound a
  · intro t
    dsimp only
    by_cases ht : t = s.tokenIds + 1
    · rw [ht, upd_self]
      dsimp only
      omega
    · rw [upd_ne _ _ ht]
      exact hg.trackBound t


theorem Good_mintAdditionalCopy {s : State} {sender albumId trackNumber : Nat}
    {s2 : State} {tid : Nat}
    (hg : Good s)
    (h : mintAdditionalCopy s sender albumId trackNumber = .ok (s2, tid)) :
    Good s2 := by
  obtain ⟨-, -, hex, hslot, hcapT, hcapA, -, -, -, hS⟩ := mintAdditionalCopy_inv h
  obtain ⟨hA1, hA2⟩ := hg.albumExistsBounds hex
  obtain ⟨hO1, hO2, hOA⟩ := hg.slotCanonical albumId trackNumber hslot
  have hON : s.albumTrackToToken albumId trackNumber ≠ s.tokenIds + 1 := by omega
  subst hS
  rw [upd_ne _ _ hON]
  refine ⟨?_, ?_, ?_, ?_, ?_, ?_, ?_, ?_⟩
  · intro a hd
    dsimp only at hd ⊢
    rw [upd_ne _ _ (by omega)]
    exact hg.albumsDefault a hd
  · intro t hd
    dsimp only at hd ⊢
    rw [upd_ne _ _ (by omega), upd_ne _ _ (by omega)]
    exact hg.tracksDefault t (by omega)
  · intro t hd
    dsimp only at hd ⊢
    rw [upd_ne _ _ (by omega)]
    exact hg.ownersDefault t (by omega)
  · intro t h1 h2
    dsimp only at h1 h2 ⊢
    by_cases htO : t = s.albumTrackToToken albumId trackNumber
    · rw [htO, upd_self]
      dsimp only
      omega
    · rw [upd_ne _ _ htO]
      by_cases htN : t = s.tokenIds + 1
      · rw [htN, upd_self]
        dsimp only
        omega
      · rw [upd_ne _ _ htN]
        obtain ⟨b1, b2⟩ := hg.albumIdBounds t h1 (by omega)
        omega
  · intro a n hx
    dsimp only at hx ⊢
    have hx2 : (s.albums a).trackExists n = true := by
      by_cases ha : a = albumId
      · subst ha
        rw [upd_self] at hx
        exact hx
      · rw [upd_ne _ _ ha] at hx
        exact hx
    obtain ⟨m1, m2, m3⟩ := hg.slotCanonical a n hx2
    refine ⟨m1, by omega, ?_⟩
    by_cases hmO : s.albumTrackToToken a n = s.albumTrackToToken albumId trackNumber
    · rw [hmO, upd_self]
      dsimp only
      rw [← hmO]
      exact m3
    · rw [upd_ne _ _ hmO, upd_ne _ _ (by omega)]
      exact m3
  · intro a hx
    dsimp only at hx ⊢
    unfold issuedCopies
    dsimp only
    rw [issued_succ]
    have hpre :
        ((Finset.range s.tokenIds).filter
          (fun i =>
            ((upd
              (upd s.tracks (s.tokenIds + 1)
                { s.tracks (s.albumTrackToToken albumId trackNumber) with
                    currentSupply :=
                      (s.tracks (s.albumTrackToToken albumId trackNumber)).currentSupply + 1
                    isForSale := true })
              (s.albumTrackToToken albumId trackNumber)
              { s.tracks (s.albumTrackToToken albumId trackNumber) with
                  currentSupply :=
                    (s.tracks (s.albumTrackToToken albumId trackNumber)).currentSupply + 1 }
              (i + 1)).albumId = a))).card =
        ((Finset.range s.tokenIds).filter
          (fun i => ((s.tracks (i + 1)).albumId = a))).card := by
      refine issued_congr (fun i hi => ?_)
      by_cases hiO : i + 1 = s.albumTrackToToken albumId trackNumber
      · rw [hiO, upd_self]
      · rw [upd_ne _ _ hiO, upd_ne _ _ (by omega)]
    rw [hpre]
    rw [upd_ne _ _ (fun hh => hON hh.symm), upd_self]
    dsimp only
    by_cases ha : a = albumId
    · subst ha
      rw [upd_self] at hx ⊢
      dsimp only
      rw [if_pos hOA]
      rw [hg.albumCount a hex]
      rfl
    · rw [upd_ne _ _ ha] at hx ⊢
      rw [if_neg (fun hh => ha (hOA ▸ hh).symm)]
      rw [hg.albumCount a hx]
      rfl
  · intro a
    dsimp only
    by_cases ha : a = albumId
    · subst ha
      rw [upd_self]
      dsimp only
      omega
    · rw [upd_ne _ _ ha]
      exact hg.albumBound a
  · intro t
    dsimp only
    by_cases htO : t = s.albumTrackToToken albumId trackNumber
    · rw [htO, upd_self]
      dsimp only
      omega
    · rw [upd_ne _ _ htO]
      by_cases htN : t = s.tokenIds + 1
      · rw [htN, upd_self]
        dsimp only
        omega
      · rw [upd_ne _ _ htN]
        exact hg.trackBound t


theorem Good_exec {s : State} (hg : Good s) (o : Op) : Good (exec s o) := by
  unfold exec
  cases hr : runOp s o with
  | error e => exact hg
  | ok s2 =>
    cases o with
    | createAlbum sender name uri tt ms =>
      simp only [runOp] at hr
      obtain ⟨v, hv⟩ := stOf_ok hr
      exact Good_createAlbum hg hv
    | mintTrack sender a n name uri mp ms =>
      simp only [runOp] at hr
      obtain ⟨v, hv⟩ := stOf_ok hr
      exact Good_mintTrack hg hv
    | mintAdditionalCopy sender a n =>
      simp only [runOp] at hr
      obtain ⟨v, hv⟩ := stOf_ok hr
      exact Good_mintAdditionalCopy hg hv
    | purchaseTrack sender v t po pc =>
      simp only [runOp] at hr
      obtain ⟨v2, hv⟩ := stOf_ok hr
      exact Good_purchaseTrack hg hv
    | setRoyalty sender c k =>
      simp only [runOp] at hr
      exact Good_setRoyalty hg hr
    | setTrackMaxSupply sender a n m =>
      simp only [runOp] at hr
      exact Good_setTrackMaxSupply hg hr
    | setAlbumMaxSupply sender a m =>
      simp only [runOp] at hr
      exact Good_setAlbumMaxSupply hg hr
    | updateTrackPrice sender t p =>
      simp only [runOp] at hr
      exact Good_updateTrackPrice hg hr
    | updateTrackSaleStatus sender t b =>
      simp only [runOp] at hr
      exact Good_updateTrackSaleStatus hg hr
    | pause sender =>
      simp only [runOp] at hr
      exact Good_pause hg hr
    | unpause sender =>
      simp only [runOp] at hr
      exact Good_unpause hg hr

theorem Good_execList (s : State) (ops : List Op) (hg : Good s) :
    Good (execList s ops) := by
  induction ops generalizing s with
  | nil => exact hg
  | cons o rest ih => exact ih _ (Good_exec hg o)

/-- Claim C4: after every sequence of operations from the initial state —
failed calls being no-ops on state — every track record and every album
record satisfies currentSupply less than or equal to maxSupply. -/
theorem supply_never_exceeds_caps (d c k : Nat) (ops : List Op) :
    (∀ a, ((execList (initState d c k) ops).albums a).currentSupply ≤
       ((execList (initState d c k) ops).albums a).maxSupply) ∧
    (∀ t, ((execList (initState d c k) ops).tracks t).currentSupply ≤
       ((execList (initState d c k) ops).tracks t).maxSupply) := by
  have hg := Good_execList (initState d c k) ops (Good_init d c k)
  exact ⟨hg.albumBound, hg.trackBound⟩

/-- Claim C9: after any sequence of operations from the initial state,
every existing album has currentSupply equal to the number of issued
copies (tokens) minted across its tracks. -/
theorem album_supply_counts_issued_copies (d c k : Nat) (ops : List Op) (a : Nat)
    (hx : ((execList (initState d c k) ops).albums a).exists_ = true) :
    ((execList (initState d c k) ops).albums a).currentSupply =
      issuedCopies (execList (initState d c k) ops) a :=
  (Good_execList (initState d c k) ops (Good_init d c k)).albumCount a hx

theorem album_supply_counts_issued_copies_witness :
    ((execList (initState 1 10 90) wOps).albums 1).currentSupply =
      issuedCopies (execList (initState 1 10 90) wOps) 1 ∧
    issuedCopies (execList (initState 1 10 90) wOps) 1 = 1 :=
  ⟨album_supply_counts_issued_copies 1 10 90 wOps 1 rfl, by decide⟩

end MusicAlbum
